import Mathlib

/-!
Verification development for the SoleStride backend order subsystem.

The definitions below are a shallow embedding of:
  * the `products`, `orders`, `order_items` tables
    (src/database/migrations/006_integrate_supabase_domain_schema.sql);
  * the SQL functions `decrement_stock` and `restore_stock` from that
    migration;
  * the admin product CRUD handlers (src/routes/admin.js);
  * the `POST /orders` order-placement handler (src/routes/user.js,
    lines 187-284), including its transaction/rollback behaviour, an
    injected persistence-fault position, and connection acquire/release
    tracking;
  * a two-transaction interleaving machine for the `SELECT ... FOR UPDATE`
    row-lock protocol used by the order handler.

Table columns not touched by any statement under study (category, sizes,
colors, image urls, timestamps, ...) are omitted.  Monetary values
(DECIMAL(10,2)) are represented exactly as integer cents; ids are `Nat`.
-/

/-- A row of `products`: the columns read or written by the order subsystem.
`stock_quantity` is SQL INTEGER (no CHECK constraint), hence `Int`. -/
structure Product where
  name : String
  price : Int
  stock_quantity : Int
  in_stock : Bool
deriving DecidableEq, Repr

/-- Product ids (UUID in SQL; any id type with decidable equality works). -/
abbrev ProductId := Nat

/-- A row of `orders` as produced by the `POST /orders` handler
(`INSERT INTO orders (user_id, total, status, shipping_address)`). -/
structure OrderRow where
  id : Nat
  user_id : Nat
  status : String
  total : Int
  shipping_address : String
deriving DecidableEq, Repr

/-- A row of `order_items` (migration 006: order_id, product_id nullable
with ON DELETE SET NULL, product_name, quantity, size, price). -/
structure OrderItemRow where
  order_id : Nat
  product_id : Option ProductId
  product_name : String
  quantity : Int
  size : Option String
  price : Int
deriving DecidableEq, Repr

/-- The persisted store: the three tables the order subsystem touches,
plus the id the next inserted order will receive. -/
structure DBState where
  products : List (ProductId × Product)
  orders : List OrderRow
  order_items : List OrderItemRow
  nextOrderId : Nat
deriving DecidableEq, Repr

/-- `SELECT ... FROM products WHERE id = pid` (first matching row). -/
def lookupProduct : List (ProductId × Product) → ProductId → Option Product
  | [], _ => none
  | p :: ps, pid => if p.1 == pid then some p.2 else lookupProduct ps pid

/-- `UPDATE products SET ... WHERE id = pid`: rewrite every row whose key
matches `pid` with `f`. -/
def updateProduct (ps : List (ProductId × Product)) (pid : ProductId)
    (f : Product → Product) : List (ProductId × Product) :=
  ps.map (fun p => if p.1 == pid then (p.1, f p.2) else p)

/-- The row update performed by the order handler's stock decrement
(user.js lines 234-241) and by `decrement_stock` (migration 006 lines
327-333): `stock_quantity = stock_quantity - q`,
`in_stock = (stock_quantity - q) > 0` — both right-hand sides read the
pre-update value. -/
def decrementUpdate (q : Int) (p : Product) : Product :=
  { p with stock_quantity := p.stock_quantity - q,
           in_stock := decide (p.stock_quantity - q > 0) }

/-- `public.decrement_stock(p_product_id, p_quantity)` (migration 006 lines
309-336): `SELECT stock_quantity ... FOR UPDATE`; if no row was found or
the stock is below the requested quantity, return false without
updating; otherwise apply the decrement and return true. -/
def decrement_stock (st : DBState) (pid : ProductId) (q : Int) :
    Bool × DBState :=
  match lookupProduct st.products pid with
  | none => (false, st)
  | some p =>
    if p.stock_quantity < q then (false, st)
    else (true,
      { st with products := updateProduct st.products pid (decrementUpdate q) })

/-- `public.restore_stock(p_product_id, p_quantity)` (migration 006 lines
338-352): `stock_quantity = stock_quantity + q`, and `in_stock = true`
unconditionally. -/
def restore_stock (st : DBState) (pid : ProductId) (q : Int) : DBState :=
  { st with products := updateProduct st.products pid (fun p =>
      { p with stock_quantity := p.stock_quantity + q, in_stock := true }) }

/-- `POST /admin/products` (admin.js lines 262-314): inserts a product with
`stock_quantity = stockQuantity` and `in_stock = stockQuantity > 0`. -/
def adminCreateProduct (st : DBState) (pid : ProductId) (nm : String)
    (price stockQuantity : Int) : DBState :=
  { st with products := st.products ++
      [(pid, { name := nm, price := price, stock_quantity := stockQuantity,
               in_stock := decide (stockQuantity > 0) })] }

/-- `PATCH /admin/products/:productId` (admin.js lines 316-395): 404 when
the product does not exist; otherwise each supplied field replaces the
current one (`req.body.x ?? current.x`), with
`stock_quantity = req.body.stock_quantity ?? current.stock_quantity` and
`in_stock = stockQuantity > 0`.  Only the `products` table is written. -/
def adminUpdateProduct (st : DBState) (pid : ProductId)
    (newName : Option String) (newPrice newStock : Option Int) :
    Option DBState :=
  match lookupProduct st.products pid with
  | none => none
  | some current =>
    let stockQuantity := newStock.getD current.stock_quantity
    some { st with products := updateProduct st.products pid (fun _ =>
      { name := newName.getD current.name,
        price := newPrice.getD current.price,
        stock_quantity := stockQuantity,
        in_stock := decide (stockQuantity > 0) }) }

/-- `DELETE /admin/products/:productId` (admin.js lines 397-424): 404 when
no row matches; otherwise the product row is deleted and, by the
`order_items.product_id ... ON DELETE SET NULL` foreign key (migration
006 line 85), every order item referencing it gets `product_id = NULL`.
All other order-item columns are untouched. -/
def adminDeleteProduct (st : DBState) (pid : ProductId) : Option DBState :=
  match lookupProduct st.products pid with
  | none => none
  | some _ =>
    some { st with
      products := st.products.filter (fun p => !(p.1 == pid)),
      order_items := st.order_items.map (fun oi =>
        if oi.product_id = some pid then { oi with product_id := none }
        else oi) }

/-- Row-level check of the spec invariant `in_stock == (stock_quantity > 0)`. -/
def in_stock_consistent (p : Product) : Bool :=
  p.in_stock == decide (p.stock_quantity > 0)

/-- Every product row of the state satisfies the `in_stock` invariant. -/
def stateConsistent (st : DBState) : Bool :=
  st.products.all (fun p => in_stock_consistent p.2)

/-- Every product row has a non-negative stock. -/
def stocksNonneg (st : DBState) : Bool :=
  st.products.all (fun p => decide (0 ≤ p.2.stock_quantity))

/-- One element of the request's `items` array (user.js lines 190-195):
`productId`, `quantity`, `price` required; `size`, `product_name`
optional. -/
structure OrderItemReq where
  productId : ProductId
  quantity : Int
  price : Int
  size : Option String
  product_name : Option String
deriving DecidableEq, Repr

/-- The body of a `POST /orders` request (user.js lines 189-198). -/
structure PlaceOrderReq where
  items : List OrderItemReq
  total : Int
  shippingAddress : String
deriving DecidableEq, Repr

/-- The express-validator chain on `POST /orders` (user.js lines 189-197):
`items` a non-empty array, each `quantity ≥ 1` and `price ≥ 0`, and
`total ≥ 0`.  (`productId isUUID`, `size`/`product_name isString` and
`shippingAddress isObject` hold by typing in this embedding.) -/
def validOrderReq (req : PlaceOrderReq) : Bool :=
  !req.items.isEmpty
    && req.items.all (fun i => decide (1 ≤ i.quantity) && decide (0 ≤ i.price))
    && decide (0 ≤ req.total)

/-- Outcomes the handler can produce: `validation`, `productNotFound` and
`insufficientStock` are the 400 responses (user.js lines 13-16, 219-222,
228-231); `fault` stands for any persistence error reaching the catch
block (line 277). -/
inductive OrderError where
  | validation
  | productNotFound
  | insufficientStock (nm : String)
  | fault
deriving DecidableEq, Repr

/-- The handler's response: 201 with the created order, or an error. -/
inductive OrderResponse where
  | ok (ord : OrderRow)
  | err (e : OrderError)
deriving DecidableEq, Repr

/-- JavaScript `x || d` on an optional string (user.js line 260:
`item.product_name || 'Product'`): the empty string is falsy. -/
def jsOr (s : Option String) (d : String) : String :=
  match s with
  | some v => if v = "" then d else v
  | none => d

/-- JavaScript `x || null` on an optional string (user.js line 262:
`item.size || null`). -/
def jsOrNull (s : Option String) : Option String :=
  match s with
  | some v => if v = "" then none else some v
  | none => none

/-- The `order_items` row inserted for one request item (user.js lines
253-266). -/
def mkOrderItemRow (orderId : Nat) (item : OrderItemReq) : OrderItemRow :=
  { order_id := orderId,
    product_id := some item.productId,
    product_name := jsOr item.product_name "Product",
    quantity := item.quantity,
    size := jsOrNull item.size,
    price := item.price }

/-- The `orders` row inserted by the handler (user.js lines 244-249):
`status = 'pending'`, `total` and `shipping_address` taken verbatim from
the request. -/
def mkOrderRow (oid uid : Nat) (total : Int) (addr : String) : OrderRow :=
  { id := oid, user_id := uid, status := "pending", total := total,
    shipping_address := addr }

/-- Result of the per-item stock loop: the query counter after the loop and
either the transaction-local products table or the error that aborted it. -/
structure LoopResult where
  ctr : Nat
  out : Except OrderError (List (ProductId × Product))

/-- The stock check/decrement loop (user.js lines 208-242), run against the
transaction-local products table.  Each iteration issues the
`SELECT ... FOR UPDATE` (query number `ctr`) and, when the checks pass,
the decrement `UPDATE` (query number `ctr + 1`); a persistence fault
injected at either query number aborts with `OrderError.fault`, a failed
check aborts with the corresponding business error (the code's explicit
`ROLLBACK` + 400 response). -/
def stockLoop (faultAt : Option Nat) :
    List OrderItemReq → Nat → List (ProductId × Product) → LoopResult
  | [], ctr, ps => { ctr := ctr, out := .ok ps }
  | item :: rest, ctr, ps =>
    if faultAt = some ctr then { ctr := ctr, out := .error .fault }
    else
      match lookupProduct ps item.productId with
      | none => { ctr := ctr + 1, out := .error .productNotFound }
      | some product =>
        if product.stock_quantity < item.quantity then
          { ctr := ctr + 1, out := .error (.insufficientStock product.name) }
        else if faultAt = some (ctr + 1) then
          { ctr := ctr + 1, out := .error .fault }
        else
          stockLoop faultAt rest (ctr + 2)
            (updateProduct ps item.productId (decrementUpdate item.quantity))

/-- The order-items insert loop (user.js lines 253-266): one `INSERT` per
item, each a numbered query at which a fault may be injected. -/
def itemsInsertLoop (faultAt : Option Nat) (orderId : Nat) :
    List OrderItemReq → Nat → List OrderItemRow →
    Nat × Except OrderError (List OrderItemRow)
  | [], ctr, acc => (ctr, .ok acc)
  | item :: rest, ctr, acc =>
    if faultAt = some ctr then (ctr, .error .fault)
    else itemsInsertLoop faultAt orderId rest (ctr + 1)
      (acc ++ [mkOrderItemRow orderId item])

/-- What one execution of the handler leaves behind: the committed store,
the HTTP-level response, and whether a pool client was acquired and
released. -/
structure HandlerTrace where
  state : DBState
  response : OrderResponse
  acquired : Bool
  released : Bool
deriving DecidableEq, Repr

/-- The `POST /orders` handler (user.js lines 187-284) with an injected
persistence-fault position `faultAt` (the number of the query that
throws; `none` for a fault-free run).

Control flow mirrors the source: validation failure responds 400 before
`getClient()` (lines 202-205); query 0 is `getClient()` itself (a fault
there leaves `client` undefined, so the catch/finally guards skip both
`ROLLBACK` and `release()`); query 1 is `BEGIN`; the stock loop starts
at query 2; then the order `INSERT`, the per-item `INSERT`s and `COMMIT`
follow.  Every path that aborts after `BEGIN` — business-rule 400s via
the explicit `ROLLBACK`s (lines 218, 227) or any thrown fault via the
catch block's `ROLLBACK` (line 278) — commits nothing, so the persisted
state is the input state; the `finally` block releases the client on all
those paths (line 281). -/
def placeOrderWithFault (faultAt : Option Nat) (st : DBState) (userId : Nat)
    (req : PlaceOrderReq) : HandlerTrace :=
  if !validOrderReq req then
    { state := st, response := .err .validation,
      acquired := false, released := false }
  else if faultAt = some 0 then
    { state := st, response := .err .fault,
      acquired := false, released := false }
  else if faultAt = some 1 then
    { state := st, response := .err .fault,
      acquired := true, released := true }
  else
    let loop := stockLoop faultAt req.items 2 st.products
    match loop.out with
    | .error e =>
      { state := st, response := .err e, acquired := true, released := true }
    | .ok ps' =>
      if faultAt = some loop.ctr then
        { state := st, response := .err .fault,
          acquired := true, released := true }
      else
        let ord := mkOrderRow st.nextOrderId userId req.total
          req.shippingAddress
        let ins := itemsInsertLoop faultAt ord.id req.items (loop.ctr + 1) []
        match ins.2 with
        | .error e =>
          { state := st, response := .err e,
            acquired := true, released := true }
        | .ok rows =>
          if faultAt = some ins.1 then
            { state := st, response := .err .fault,
              acquired := true, released := true }
          else
            { state :=
                { products := ps',
                  orders := st.orders ++ [ord],
                  order_items := st.order_items ++ rows,
                  nextOrderId := st.nextOrderId + 1 },
              response := .ok ord, acquired := true, released := true }

/-- The handler on a fault-free run. -/
def placeOrder (st : DBState) (userId : Nat) (req : PlaceOrderReq) :
    HandlerTrace :=
  placeOrderWithFault none st userId req

/-- The cumulative effect of the stock loop's decrements on the products
table, when every item passes its checks. -/
def decrementAll (items : List OrderItemReq)
    (ps : List (ProductId × Product)) : List (ProductId × Product) :=
  items.foldl
    (fun acc item => updateProduct acc item.productId
      (decrementUpdate item.quantity)) ps

/-!
Two concurrent `POST /orders` requests on the same product.

The handler's concurrency control is the store's row lock: each
transaction's first statement on the product row is
`SELECT ... FOR UPDATE` (user.js lines 209-215), which blocks until no
other transaction holds the row lock, and the lock is held until that
transaction's `COMMIT` or `ROLLBACK`.  The machine below models two
single-item order requests for the same product with quantities `q0`,
`q1`, interleaved by an arbitrary scheduler.  Each transaction runs the
handler's statements in order:

  pc 0  SELECT ... FOR UPDATE   acquire the row lock, read the stock
  pc 1  the JS stock check      rollback (release, respond 400) when
                                `snap < q`, else continue
  pc 2  UPDATE products ...     decrement the shared stock
  pc 3  INSERT INTO orders      no effect on stock
  pc 4  INSERT INTO order_items no effect on stock
  pc 5  COMMIT                  release the lock, respond 201
  pc 9  finished

A transaction at pc 0 whose lock is held by the other one cannot step
(the scheduler's choice is a no-op), which is exactly the blocking
semantics of `FOR UPDATE`.
-/

/-- Per-transaction state: program counter, the stock value read by its
`SELECT ... FOR UPDATE`, and its response (`some true` = 201,
`some false` = 400 insufficient stock). -/
structure TxnLocal where
  pc : Nat
  snap : Int
  res : Option Bool
deriving DecidableEq, Repr

/-- Shared state of the two-transaction execution: the product's
`stock_quantity`, which transaction (if any) holds its row lock, and the
two transactions' local states. -/
structure TwoTxnState where
  stock : Int
  lock : Option Bool
  txn0 : TxnLocal
  txn1 : TxnLocal
deriving DecidableEq, Repr

/-- One statement of one transaction (quantity `q`, identity `who`) against
the shared stock and lock.  Returns the new stock, lock and local state;
a blocked or finished transaction leaves everything unchanged. -/
def txnStep (q : Int) (who : Bool) (stock : Int) (lock : Option Bool)
    (l : TxnLocal) : Int × Option Bool × TxnLocal :=
  if l.res.isSome then (stock, lock, l)
  else
    match l.pc with
    | 0 => if lock = none then
             (stock, some who, { l with pc := 1, snap := stock })
           else (stock, lock, l)
    | 1 => if l.snap < q then
             (stock, none, { l with pc := 9, res := some false })
           else (stock, lock, { l with pc := 2 })
    | 2 => (stock - q, lock, { l with pc := 3 })
    | 3 => (stock, lock, { l with pc := 4 })
    | 4 => (stock, lock, { l with pc := 5 })
    | 5 => (stock, none, { l with pc := 9, res := some true })
    | _ => (stock, lock, l)

/-- Scheduler step: `who = false` steps transaction 0 (quantity `q0`),
`who = true` steps transaction 1 (quantity `q1`). -/
def step (q0 q1 : Int) (st : TwoTxnState) (who : Bool) : TwoTxnState :=
  if who = false then
    let r := txnStep q0 false st.stock st.lock st.txn0
    { st with stock := r.1, lock := r.2.1, txn0 := r.2.2 }
  else
    let r := txnStep q1 true st.stock st.lock st.txn1
    { st with stock := r.1, lock := r.2.1, txn1 := r.2.2 }

/-- Run a schedule (arbitrary interleaving) from a state. -/
def runSched (q0 q1 : Int) (sched : List Bool) (st : TwoTxnState) :
    TwoTxnState :=
  sched.foldl (step q0 q1) st

/-- Initial state: product stock `s`, lock free, both requests yet to
start. -/
def initTwo (s : Int) : TwoTxnState :=
  { stock := s, lock := none,
    txn0 := { pc := 0, snap := 0, res := none },
    txn1 := { pc := 0, snap := 0, res := none } }

/-- A transaction that has begun but not yet committed or rolled back:
it holds the row lock. -/
def activeTxn (l : TxnLocal) : Prop :=
  l.res = none ∧ 1 ≤ l.pc ∧ l.pc ≤ 5

/-- Whether this transaction's stock decrement has been applied (it ran its
`UPDATE`, and did not roll back — in this protocol a transaction past
pc 2 never rolls back). -/
def decApplied (l : TxnLocal) : Bool :=
  l.res == some true || (l.res == none && decide (3 ≤ l.pc))

/-- The reachable shapes of one transaction's local state (quantity `q`):
past the pc-1 check the snapshot is known sufficient. -/
def okTxn (q : Int) (l : TxnLocal) : Prop :=
  (l.pc = 0 ∧ l.res = none)
  ∨ (l.pc = 1 ∧ l.res = none)
  ∨ (l.pc = 2 ∧ l.res = none ∧ q ≤ l.snap)
  ∨ (l.pc = 3 ∧ l.res = none ∧ q ≤ l.snap)
  ∨ (l.pc = 4 ∧ l.res = none ∧ q ≤ l.snap)
  ∨ (l.pc = 5 ∧ l.res = none ∧ q ≤ l.snap)
  ∨ (l.pc = 9 ∧ (l.res = some true ∨ l.res = some false))

/-- Invariant of the two-transaction execution from stock `s`: reachable
local shapes, mutual exclusion via the row lock, exact stock accounting,
non-negative stock, and currency of the snapshot while the holder has
not yet run its `UPDATE`. -/
def TwoInv (s q0 q1 : Int) (st : TwoTxnState) : Prop :=
  okTxn q0 st.txn0 ∧ okTxn q1 st.txn1
  ∧ st.stock = s - (if decApplied st.txn0 then q0 else 0)
      - (if decApplied st.txn1 then q1 else 0)
  ∧ 0 ≤ st.stock
  ∧ (st.lock = none → ¬ activeTxn st.txn0 ∧ ¬ activeTxn st.txn1)
  ∧ (st.lock = some false → activeTxn st.txn0 ∧ ¬ activeTxn st.txn1)
  ∧ (st.lock = some true → activeTxn st.txn1 ∧ ¬ activeTxn st.txn0)
  ∧ (st.txn0.res = none → 1 ≤ st.txn0.pc → st.txn0.pc ≤ 2 →
       st.txn0.snap = st.stock)
  ∧ (st.txn1.res = none → 1 ≤ st.txn1.pc → st.txn1.pc ≤ 2 →
       st.txn1.snap = st.stock)

/-- The purchase-time snapshot carried by an `order_items` row: every
column except the (nullable) `product_id` reference. -/
def snapshotView (oi : OrderItemRow) :
    Nat × String × Int × Int × Option String :=
  (oi.order_id, oi.product_name, oi.price, oi.quantity, oi.size)

/-- A single-line-item order request. -/
def singleItemReq (pid : ProductId) (q price total : Int) (addr : String) :
    PlaceOrderReq :=
  { items := [{ productId := pid, quantity := q, price := price,
                size := none, product_name := none }],
    total := total, shippingAddress := addr }

/-- Concrete store used to exercise the claims: one product with stock 3. -/
def stShoe : DBState :=
  { products := [(1, { name := "Shoe", price := 1999, stock_quantity := 3,
                       in_stock := true })],
    orders := [], order_items := [], nextOrderId := 0 }

/-- Concrete store with an out-of-stock product (consistent `in_stock`). -/
def stBoot : DBState :=
  { products := [(1, { name := "Boot", price := 500, stock_quantity := 0,
                       in_stock := false })],
    orders := [], order_items := [], nextOrderId := 0 }

/-- Concrete store with a product of stock 2 (consistent `in_stock`). -/
def stSneaker : DBState :=
  { products := [(2, { name := "Sneaker", price := 1999,
                       stock_quantity := 2, in_stock := true })],
    orders := [], order_items := [], nextOrderId := 0 }

/-- Concrete store holding a placed order whose item snapshots product 1
("Sneaker", price 1999). -/
def stPlaced : DBState :=
  { products := [(1, { name := "Sneaker", price := 1999,
                       stock_quantity := 5, in_stock := true })],
    orders := [{ id := 10, user_id := 7, status := "pending", total := 1999,
                 shipping_address := "addr" }],
    order_items := [{ order_id := 10, product_id := some 1,
                      product_name := "Sneaker", quantity := 1,
                      size := none, price := 1999 }],
    nextOrderId := 11 }

/-- `stPlaced` after the admin edits the product's price to 2999 cents:
only the product row changes. -/
def stPlacedUpd : DBState :=
  { products := [(1, { name := "Sneaker", price := 2999,
                       stock_quantity := 5, in_stock := true })],
    orders := stPlaced.orders,
    order_items := stPlaced.order_items,
    nextOrderId := 11 }

/-- `stPlaced` after the admin deletes the product: the product row is
gone and the order item's `product_id` is nulled; its snapshot columns
are untouched. -/
def stPlacedDel : DBState :=
  { products := [],
    orders := stPlaced.orders,
    order_items := [{ order_id := 10, product_id := none,
                      product_name := "Sneaker", quantity := 1,
                      size := none, price := 1999 }],
    nextOrderId := 11 }

/-! ## Lemmas about the products table -/

/-- Reading back the key just updated returns the updated value. -/
theorem lookup_update_self (ps : List (ProductId × Product))
    (pid : ProductId) (f : Product → Product) :
    lookupProduct (updateProduct ps pid f) pid =
      (lookupProduct ps pid).map f := by
  induction ps with
  | nil => rfl
  | cons a t ih =>
    simp only [updateProduct, List.map_cons, beq_iff_eq] at ih ⊢
    by_cases h : a.1 = pid
    · simp [lookupProduct, h]
    · simpa [lookupProduct, h] using ih

/-- Updating one key leaves lookups of any other key unchanged. -/
theorem lookup_update_ne (ps : List (ProductId × Product))
    (pid pid2 : ProductId) (f : Product → Product) (h : pid2 ≠ pid) :
    lookupProduct (updateProduct ps pid f) pid2 = lookupProduct ps pid2 := by
  induction ps with
  | nil => rfl
  | cons a t ih =>
    simp only [updateProduct, List.map_cons, beq_iff_eq] at ih ⊢
    by_cases h1 : a.1 = pid
    · have h2 : ¬ a.1 = pid2 := fun hc => h (hc ▸ h1 ▸ rfl)
      have h3 : ¬ pid = pid2 := fun hc => h hc.symm
      simp [lookupProduct, h1, h2, h3, ih]
    · by_cases h2 : a.1 = pid2 <;> simp [lookupProduct, h1, h2, h, ih]

/-! ## C5, C10: the decrement_stock contract -/

/-- C5: `decrement_stock` has a soft-failure contract — on an existing
product, if the stock is below the requested quantity it returns false
and leaves the store untouched (no error is raised: the function is
total); otherwise it returns true and decrements that product's
`stock_quantity` by the quantity, leaving every other product and the
order tables unchanged. -/
theorem decrement_stock_soft_contract (st : DBState) (pid : ProductId)
    (q : Int) (p : Product)
    (hp : lookupProduct st.products pid = some p) :
    (p.stock_quantity < q → decrement_stock st pid q = (false, st)) ∧
    (q ≤ p.stock_quantity →
      (decrement_stock st pid q).1 = true ∧
      lookupProduct (decrement_stock st pid q).2.products pid =
        some { p with stock_quantity := p.stock_quantity - q,
                      in_stock := decide (p.stock_quantity - q > 0) } ∧
      (∀ pid2, pid2 ≠ pid →
        lookupProduct (decrement_stock st pid q).2.products pid2 =
          lookupProduct st.products pid2) ∧
      (decrement_stock st pid q).2.orders = st.orders ∧
      (decrement_stock st pid q).2.order_items = st.order_items) := by
  constructor
  · intro hlt
    simp [decrement_stock, hp, hlt]
  · intro hge
    have hnlt : ¬ p.stock_quantity < q := not_lt.mpr hge
    refine ⟨by simp [decrement_stock, hp, hnlt], ?_, ?_, ?_, ?_⟩
    · simp [decrement_stock, hp, hnlt, lookup_update_self, decrementUpdate]
    · intro pid2 hne
      simp [decrement_stock, hp, hnlt, lookup_update_ne _ _ _ _ hne]
    · simp [decrement_stock, hp, hnlt]
    · simp [decrement_stock, hp, hnlt]

/-- Witness for C5 at a concrete store: stock 3, request 2 succeeds and
leaves stock 1. -/
theorem decrement_stock_soft_contract_witness :
    (decrement_stock stShoe 1 2).1 = true ∧
    lookupProduct (decrement_stock stShoe 1 2).2.products 1 =
      some { name := "Shoe", price := 1999, stock_quantity := 1,
             in_stock := true } := by
  have h := (decrement_stock_soft_contract stShoe 1 2
    { name := "Shoe", price := 1999, stock_quantity := 3, in_stock := true }
    (by decide)).2 (by decide)
  exact ⟨h.1, by simpa using h.2.1⟩

/-- C10: on a product id not present in `products`, `decrement_stock`
returns false (it does not raise an error) and the store is unchanged. -/
theorem decrement_stock_missing_product (st : DBState) (pid : ProductId)
    (q : Int) (h : lookupProduct st.products pid = none) :
    decrement_stock st pid q = (false, st) := by
  simp [decrement_stock, h]

/-- Witness for C10: product id 99 does not exist in `stShoe`. -/
theorem decrement_stock_missing_product_witness :
    decrement_stock stShoe 99 5 = (false, stShoe) :=
  decrement_stock_missing_product stShoe 99 5 (by decide)

/-! ## C6: restore_stock and the in_stock rule -/

/-- C6 counterexample: `restore_stock` does NOT apply the
`in_stock = (new stock_quantity) > 0` rule — it sets `in_stock = true`
unconditionally (migration 006 line 348).  Restoring quantity -2 on an
existing product with stock 2 leaves `stock_quantity = 0` but
`in_stock = true`, violating the claimed rule at this input. -/
theorem restore_stock_in_stock_cex :
    lookupProduct stSneaker.products 2 =
      some { name := "Sneaker", price := 1999, stock_quantity := 2,
             in_stock := true } ∧
    lookupProduct (restore_stock stSneaker 2 (-2)).products 2 =
      some { name := "Sneaker", price := 1999, stock_quantity := 0,
             in_stock := true } ∧
    in_stock_consistent { name := "Sneaker", price := 1999,
                          stock_quantity := 0, in_stock := true } = false := by
  decide

/-- C6 (amended): for every existing product with non-negative stock and
every quantity ≥ 1, after `restore_stock` the product has
`stock_quantity` increased by the quantity and `in_stock = true`, which
agrees with the rule `in_stock = (new stock_quantity) > 0` because the
new stock is positive.  (As the counterexample shows, for quantities
that leave the stock at or below zero the unconditional `in_stock = true`
departs from that rule.) -/
theorem restore_stock_in_stock_amended (st : DBState) (pid : ProductId)
    (q : Int) (p : Product)
    (hp : lookupProduct st.products pid = some p)
    (hnn : 0 ≤ p.stock_quantity) (hq : 1 ≤ q) :
    lookupProduct (restore_stock st pid q).products pid =
      some { p with stock_quantity := p.stock_quantity + q,
                    in_stock := true } ∧
    in_stock_consistent { p with stock_quantity := p.stock_quantity + q,
                                 in_stock := true } = true := by
  constructor
  · simp [restore_stock, lookup_update_self, hp]
  · simp only [in_stock_consistent]
    simp only [beq_iff_eq]
    have : (0 : Int) < p.stock_quantity + q := by omega
    simp [this]

/-- Witness for C6 (amended): restoring 1 onto stock 2 gives stock 3,
in stock. -/
theorem restore_stock_in_stock_amended_witness :
    lookupProduct (restore_stock stSneaker 2 1).products 2 =
      some { name := "Sneaker", price := 1999, stock_quantity := 3,
             in_stock := true } :=
  (restore_stock_in_stock_amended stSneaker 2 1
    { name := "Sneaker", price := 1999, stock_quantity := 2,
      in_stock := true } (by decide) (by decide) (by decide)).1

/-! ## C7: order-item snapshot immutability -/

/-- C7 counterexample: deleting a referenced product does change the
placed order's `order_items` rows — the `ON DELETE SET NULL` foreign key
nulls `product_id` — so the rows are not literally unchanged, although
the snapshot columns (`product_name`, `price`, ...) are. -/
theorem order_items_snapshot_cex :
    adminDeleteProduct stPlaced 1 = some stPlacedDel ∧
    stPlacedDel.order_items ≠ stPlaced.order_items ∧
    stPlacedDel.order_items.map snapshotView =
      stPlaced.order_items.map snapshotView := by
  decide

/-- C7 (amended): an admin product edit leaves every `order_items` row
fully unchanged, and a product deletion changes only the `product_id`
reference (set to NULL): `order_id`, `product_name`, `price`, `quantity`
and `size` keep the values captured at purchase time in both cases. -/
theorem order_items_snapshot_amended (st : DBState) (pid : ProductId)
    (nn : Option String) (np ns : Option Int) :
    (∀ st1, adminUpdateProduct st pid nn np ns = some st1 →
        st1.order_items = st.order_items) ∧
    (∀ st2, adminDeleteProduct st pid = some st2 →
        st2.order_items.map snapshotView =
          st.order_items.map snapshotView) := by
  constructor
  · intro st1 h
    cases hl : lookupProduct st.products pid with
    | none => simp [adminUpdateProduct, hl] at h
    | some cur =>
      simp only [adminUpdateProduct, hl, Option.some_inj] at h
      rw [← h]
  · intro st2 h
    cases hl : lookupProduct st.products pid with
    | none => simp [adminDeleteProduct, hl] at h
    | some cur =>
      simp only [adminDeleteProduct, hl, Option.some_inj] at h
      rw [← h]
      simp only [List.map_map]
      apply List.map_congr_left
      intro oi _
      by_cases hoi : oi.product_id = some pid <;>
        simp [snapshotView, Function.comp, hoi]

/-- Witness for C7 (amended): the price edit and the deletion of the
product in `stPlaced` each preserve the order item's snapshot. -/
theorem order_items_snapshot_amended_witness :
    stPlacedUpd.order_items = stPlaced.order_items ∧
    stPlacedDel.order_items.map snapshotView =
      stPlaced.order_items.map snapshotView :=
  ⟨(order_items_snapshot_amended stPlaced 1 none (some 2999) none).1
      stPlacedUpd (by decide),
   (order_items_snapshot_amended stPlaced 1 none none none).2
      stPlacedDel (by decide)⟩

/-! ## Lemmas about the order-placement handler -/

/-- When the stock loop completes, its result is the fold of the per-item
decrements over the products table. -/
theorem stockLoop_ok (faultAt : Option Nat) (items : List OrderItemReq)
    (ctr : Nat) (ps ps' : List (ProductId × Product))
    (h : (stockLoop faultAt items ctr ps).out = .ok ps') :
    ps' = decrementAll items ps := by
  induction items generalizing ctr ps with
  | nil =>
    simp only [stockLoop] at h
    simp only [decrementAll, List.foldl_nil]
    exact (Except.ok.inj h).symm
  | cons item rest ih =>
    simp only [stockLoop] at h
    split at h
    · simp at h
    · split at h
      · simp at h
      · split at h
        · simp at h
        · split at h
          · simp at h
          · simpa [decrementAll] using ih _ _ h

/-- When the order-items insert loop completes, it has appended one row per
input item, in order. -/
theorem itemsInsertLoop_ok (faultAt : Option Nat) (oid : Nat)
    (items : List OrderItemReq) (ctr : Nat) (acc rows : List OrderItemRow)
    (h : (itemsInsertLoop faultAt oid items ctr acc).2 = .ok rows) :
    rows = acc ++ items.map (mkOrderItemRow oid) := by
  induction items generalizing ctr acc with
  | nil =>
    simp only [itemsInsertLoop] at h
    simp [(Except.ok.inj h).symm]
  | cons item rest ih =>
    simp only [itemsInsertLoop] at h
    split at h
    · simp at h
    · simpa using ih _ _ h

set_option maxRecDepth 4000 in
/-- Exhaustive description of the handler's outcomes: either it commits
nothing (every non-201 path), or it responds 201 with the inserted order
and commits exactly the decremented products, the order row and one
order-item row per input item. -/
theorem placeOrder_cases (faultAt : Option Nat) (st : DBState) (uid : Nat)
    (req : PlaceOrderReq) :
    ((∀ ord, (placeOrderWithFault faultAt st uid req).response ≠ .ok ord) ∧
      (placeOrderWithFault faultAt st uid req).state = st) ∨
    ((placeOrderWithFault faultAt st uid req).response =
        .ok (mkOrderRow st.nextOrderId uid req.total req.shippingAddress) ∧
      (placeOrderWithFault faultAt st uid req).state =
        { products := decrementAll req.items st.products,
          orders := st.orders ++
            [mkOrderRow st.nextOrderId uid req.total req.shippingAddress],
          order_items := st.order_items ++
            req.items.map (mkOrderItemRow st.nextOrderId),
          nextOrderId := st.nextOrderId + 1 }) := by
  simp only [placeOrderWithFault]
  split
  · left; simp
  · split
    · left; simp
    · split
      · left; simp
      · split
        next e heq => left; simp
        next ps' heq =>
          split
          · left; simp
          · split
            next e2 heq2 => left; simp
            next rows heq2 =>
              split
              · left; simp
              · right
                have hps := stockLoop_ok _ _ _ _ _ heq
                have hrows := itemsInsertLoop_ok _ _ _ _ _ _ heq2
                constructor
                · simp [mkOrderRow]
                · simp [hps, hrows, mkOrderRow]

/-! ## C1: atomicity of order placement -/

/-- C1: Place Order is all-or-nothing.  For every request and every
injected failure point (getClient, BEGIN, any SELECT/UPDATE of the stock
loop, the order INSERT, any order-item INSERT, COMMIT) as well as every
business-rule failure, a non-201 outcome persists nothing: no stock
change, no order row, no order-item row.  A 201 outcome persists all
stock decrements, the order row and one order-item row per input item,
together. -/
theorem place_order_atomic (faultAt : Option Nat) (st : DBState) (uid : Nat)
    (req : PlaceOrderReq) :
    (∀ e, (placeOrderWithFault faultAt st uid req).response = .err e →
        (placeOrderWithFault faultAt st uid req).state = st) ∧
    (∀ ord, (placeOrderWithFault faultAt st uid req).response = .ok ord →
        (placeOrderWithFault faultAt st uid req).state =
          { products := decrementAll req.items st.products,
            orders := st.orders ++ [ord],
            order_items := st.order_items ++
              req.items.map (mkOrderItemRow ord.id),
            nextOrderId := st.nextOrderId + 1 }) := by
  rcases placeOrder_cases faultAt st uid req with ⟨hne, hst⟩ | ⟨hok, hst⟩
  · exact ⟨fun e _ => hst, fun ord hord => absurd hord (hne ord)⟩
  · constructor
    · intro e he
      rw [hok] at he
      cases he
    · intro ord hord
      rw [hok] at hord
      cases hord
      simpa [mkOrderRow] using hst

/-- Witness for C1: a failing request (quantity 5 > stock 3) persists
nothing; a succeeding one (quantity 2) persists the decrement, the order
and its item. -/
theorem place_order_atomic_witness :
    (placeOrderWithFault none stShoe 7
        (singleItemReq 1 5 1999 9995 "addr")).state = stShoe ∧
    (placeOrderWithFault none stShoe 7
        (singleItemReq 1 2 1999 3998 "addr")).state =
      { products := decrementAll (singleItemReq 1 2 1999 3998 "addr").items
          stShoe.products,
        orders := stShoe.orders ++ [mkOrderRow 0 7 3998 "addr"],
        order_items := stShoe.order_items ++
          (singleItemReq 1 2 1999 3998 "addr").items.map
            (mkOrderItemRow (mkOrderRow 0 7 3998 "addr").id),
        nextOrderId := stShoe.nextOrderId + 1 } :=
  ⟨(place_order_atomic none stShoe 7 (singleItemReq 1 5 1999 9995 "addr")).1
      (.insufficientStock "Shoe") (by decide),
   (place_order_atomic none stShoe 7 (singleItemReq 1 2 1999 3998 "addr")).2
      (mkOrderRow 0 7 3998 "addr") (by decide)⟩

/-! ## C8: the order total is the client-supplied total -/

/-- C8: every successful Place Order stores exactly the request's `total`
field in the created order row (which is persisted in `orders`); the
server never recomputes it from the items — no relation between `total`
and the items' price x quantity sum is required anywhere. -/
theorem order_total_trusted (faultAt : Option Nat) (st : DBState) (uid : Nat)
    (req : PlaceOrderReq) (ord : OrderRow)
    (h : (placeOrderWithFault faultAt st uid req).response = .ok ord) :
    ord.total = req.total ∧
    ord ∈ (placeOrderWithFault faultAt st uid req).state.orders := by
  rcases placeOrder_cases faultAt st uid req with ⟨hne, _⟩ | ⟨hok, hst⟩
  · exact absurd h (hne ord)
  · rw [hok] at h
    cases h
    refine ⟨by simp [mkOrderRow], ?_⟩
    rw [hst]
    simp

/-- Witness for C8: total 999 is stored although the only item costs
1999 x 3 = 5997. -/
theorem order_total_trusted_witness :
    (999 : Int) ≠ 1999 * 3 ∧
    (mkOrderRow 0 7 999 "addr").total =
      (singleItemReq 1 3 1999 999 "addr").total ∧
    mkOrderRow 0 7 999 "addr" ∈
      (placeOrderWithFault none stShoe 7
        (singleItemReq 1 3 1999 999 "addr")).state.orders :=
  ⟨by decide,
   (order_total_trusted none stShoe 7 (singleItemReq 1 3 1999 999 "addr")
      (mkOrderRow 0 7 999 "addr") (by decide)).1,
   (order_total_trusted none stShoe 7 (singleItemReq 1 3 1999 999 "addr")
      (mkOrderRow 0 7 999 "addr") (by decide)).2⟩

/-! ## C4: boundary — ordering exactly the available stock -/

/-- C4: a valid single-item order whose quantity equals the product's
current `stock_quantity` succeeds (201 with the created order), and
afterwards that product has `stock_quantity = 0` and `in_stock = false`. -/
theorem boundary_exact_stock (st : DBState) (uid : Nat) (pid : ProductId)
    (p : Product) (price total : Int) (addr : String)
    (hp : lookupProduct st.products pid = some p)
    (hq : 1 ≤ p.stock_quantity) (hpr : 0 ≤ price) (ht : 0 ≤ total) :
    (placeOrder st uid
        (singleItemReq pid p.stock_quantity price total addr)).response =
      .ok (mkOrderRow st.nextOrderId uid total addr) ∧
    lookupProduct (placeOrder st uid
        (singleItemReq pid p.stock_quantity price total addr)).state.products
        pid =
      some { p with stock_quantity := 0, in_stock := false } := by
  have hv : validOrderReq (singleItemReq pid p.stock_quantity price total addr)
      = true := by
    simp [validOrderReq, singleItemReq]
    exact ⟨⟨hq, hpr⟩, ht⟩
  simp only [singleItemReq] at hv
  have hloop : stockLoop none
      [{ productId := pid, quantity := p.stock_quantity, price := price,
         size := none, product_name := none }] 2 st.products =
      { ctr := 4,
        out := .ok (updateProduct st.products pid
          (decrementUpdate p.stock_quantity)) } := by
    simp [stockLoop, hp]
  constructor
  · simp [placeOrder, placeOrderWithFault, hv, singleItemReq, hloop,
      itemsInsertLoop, mkOrderRow]
  · have hstate : (placeOrder st uid
        (singleItemReq pid p.stock_quantity price total addr)).state.products =
        updateProduct st.products pid (decrementUpdate p.stock_quantity) := by
      simp [placeOrder, placeOrderWithFault, hv, singleItemReq, hloop,
        itemsInsertLoop, mkOrderRow]
    rw [hstate, lookup_update_self, hp]
    simp [decrementUpdate]

/-- Witness for C4: ordering quantity 3 of the stock-3 product empties it
and marks it out of stock. -/
theorem boundary_exact_stock_witness :
    (placeOrder stShoe 7 (singleItemReq 1 3 1999 5997 "addr")).response =
      .ok (mkOrderRow 0 7 5997 "addr") ∧
    lookupProduct
        (placeOrder stShoe 7 (singleItemReq 1 3 1999 5997 "addr")).state.products
        1 =
      some { name := "Shoe", price := 1999, stock_quantity := 0,
             in_stock := false } :=
  boundary_exact_stock stShoe 7 1
    { name := "Shoe", price := 1999, stock_quantity := 3, in_stock := true }
    1999 5997 "addr" (by decide) (by decide) (by decide) (by decide)

/-! ## C9: the pool client is released on every exit path -/

/-- The handler's `finally` block makes release mirror acquisition on every
control path. -/
theorem placeOrder_release_eq_acquire (faultAt : Option Nat) (st : DBState)
    (uid : Nat) (req : PlaceOrderReq) :
    (placeOrderWithFault faultAt st uid req).released =
      (placeOrderWithFault faultAt st uid req).acquired := by
  simp only [placeOrderWithFault]
  split
  · rfl
  · split
    · rfl
    · split
      · rfl
      · split
        next e heq => rfl
        next ps' heq =>
          split
          · rfl
          · split
            next e2 heq2 => rfl
            next rows heq2 =>
              split
              · rfl
              · rfl

/-- C9: whenever the order handler acquires a pool client — on success, on
a business-rule failure (product not found, insufficient stock), or on a
persistence fault at any query — the `finally` block releases it before
the handler finishes.  (The only executions with no release are those
that never acquired a client: validation failures and a failing
`getClient()` itself.) -/
theorem client_release_on_all_paths (faultAt : Option Nat) (st : DBState)
    (uid : Nat) (req : PlaceOrderReq)
    (h : (placeOrderWithFault faultAt st uid req).acquired = true) :
    (placeOrderWithFault faultAt st uid req).released = true := by
  rw [placeOrder_release_eq_acquire]
  exact h

/-- Witness for C9: a fault injected at the COMMIT of a valid one-item
order still releases the acquired client. -/
theorem client_release_on_all_paths_witness :
    (placeOrderWithFault (some 6) stShoe 7
        (singleItemReq 1 1 1999 1999 "addr")).acquired = true ∧
    (placeOrderWithFault (some 6) stShoe 7
        (singleItemReq 1 1 1999 1999 "addr")).released = true :=
  ⟨by decide,
   client_release_on_all_paths (some 6) stShoe 7
     (singleItemReq 1 1 1999 1999 "addr") (by decide)⟩

/-! ## C3: the in_stock invariant across all mutations -/

/-- C3 counterexample: not every committed mutation preserves
`in_stock == (stock_quantity > 0)` — `restore_stock` with quantity 0 on
an out-of-stock product is a committed mutation (its UPDATE always runs)
that leaves `stock_quantity = 0` with `in_stock = true`. -/
theorem in_stock_invariant_cex :
    stateConsistent stBoot = true ∧
    stateConsistent (restore_stock stBoot 1 0) = false := by
  decide

/-- Row updates that preserve a row predicate preserve it state-wide. -/
theorem all_updateProduct (P : Product → Bool)
    (ps : List (ProductId × Product)) (pid : ProductId) (f : Product → Product)
    (h : ps.all (fun x => P x.2) = true)
    (hf : ∀ p, P p = true → P (f p) = true) :
    (updateProduct ps pid f).all (fun x => P x.2) = true := by
  rw [List.all_eq_true] at h ⊢
  intro x hx
  simp only [updateProduct] at hx
  rcases List.mem_map.mp hx with ⟨a, ha, rfl⟩
  by_cases hk : (a.1 == pid) = true
  · simpa [hk] using hf _ (h a ha)
  · simpa [hk] using h a ha

/-- The stock-loop decrements preserve the `in_stock` invariant: each write
sets `in_stock` to exactly `(new stock) > 0`. -/
theorem consistent_decrementAll (items : List OrderItemReq)
    (ps : List (ProductId × Product))
    (h : ps.all (fun x => in_stock_consistent x.2) = true) :
    (decrementAll items ps).all (fun x => in_stock_consistent x.2) = true := by
  induction items generalizing ps with
  | nil => simpa [decrementAll] using h
  | cons item rest ih =>
    have hstep := all_updateProduct in_stock_consistent ps item.productId
      (decrementUpdate item.quantity) h
      (fun p _ => by simp [in_stock_consistent, decrementUpdate])
    simpa [decrementAll] using ih _ hstep

/-- C3 (amended): `in_stock == (stock_quantity > 0)` holds after every
committed mutation of Place Order (any outcome, any fault point), admin
product create, admin product update, and `decrement_stock`; it holds
after `restore_stock` provided the restored quantity is ≥ 1 and stocks
are non-negative (for quantities that leave the stock at or below zero,
`restore_stock`'s unconditional `in_stock = true` violates it — see the
counterexample). -/
theorem in_stock_invariant_amended (st : DBState)
    (hc : stateConsistent st = true) (hnn : stocksNonneg st = true)
    (faultAt : Option Nat) (uid : Nat) (req : PlaceOrderReq)
    (pidC : ProductId) (nm : String) (pr sq : Int)
    (pidU : ProductId) (un : Option String) (up us : Option Int)
    (pidD : ProductId) (qD : Int)
    (pidR : ProductId) (qR : Int) (hqR : 1 ≤ qR) :
    stateConsistent (placeOrderWithFault faultAt st uid req).state = true ∧
    stateConsistent (adminCreateProduct st pidC nm pr sq) = true ∧
    (∀ st1, adminUpdateProduct st pidU un up us = some st1 →
        stateConsistent st1 = true) ∧
    stateConsistent (decrement_stock st pidD qD).2 = true ∧
    stateConsistent (restore_stock st pidR qR) = true := by
  refine ⟨?_, ?_, ?_, ?_, ?_⟩
  · rcases placeOrder_cases faultAt st uid req with ⟨_, hst⟩ | ⟨_, hst⟩
    · rw [hst]; exact hc
    · rw [hst]
      simp only [stateConsistent] at hc ⊢
      exact consistent_decrementAll req.items st.products hc
  · simp only [stateConsistent, adminCreateProduct, List.all_append,
      Bool.and_eq_true] at hc ⊢
    exact ⟨hc, by simp [in_stock_consistent]⟩
  · intro st1 h1
    cases hl : lookupProduct st.products pidU with
    | none => simp [adminUpdateProduct, hl] at h1
    | some cur =>
      simp only [adminUpdateProduct, hl, Option.some_inj] at h1
      rw [← h1]
      simp only [stateConsistent] at hc ⊢
      exact all_updateProduct _ _ _ _ hc (fun p _ => by simp [in_stock_consistent])
  · cases hl : lookupProduct st.products pidD with
    | none => simpa [decrement_stock, hl] using hc
    | some cur =>
      by_cases hlt : cur.stock_quantity < qD
      · simpa [decrement_stock, hl, hlt] using hc
      · simp only [decrement_stock, hl, if_neg hlt]
        simp only [stateConsistent] at hc ⊢
        exact all_updateProduct _ _ _ _ hc
          (fun p _ => by simp [in_stock_consistent, decrementUpdate])
  · simp only [stateConsistent, restore_stock]
    rw [List.all_eq_true]
    intro x hx
    simp only [updateProduct] at hx
    rcases List.mem_map.mp hx with ⟨a, ha, rfl⟩
    have hna : (0 : Int) ≤ a.2.stock_quantity := by
      rw [stocksNonneg, List.all_eq_true] at hnn
      simpa using hnn a ha
    by_cases hk : (a.1 == pidR) = true
    · have : (0 : Int) < a.2.stock_quantity + qR := by omega
      simp [hk, in_stock_consistent, this]
    · rw [stateConsistent, List.all_eq_true] at hc
      simpa [hk] using hc a ha

/-- Witness for C3 (amended): in the consistent non-negative store
`stShoe`, each of the five mutations yields a consistent store. -/
theorem in_stock_invariant_amended_witness :
    stateConsistent (placeOrderWithFault none stShoe 7
      (singleItemReq 1 1 1999 1999 "a")).state = true ∧
    stateConsistent (adminCreateProduct stShoe 5 "New" 10 0) = true ∧
    stateConsistent (decrement_stock stShoe 1 1).2 = true ∧
    stateConsistent (restore_stock stShoe 1 2) = true := by
  have h := in_stock_invariant_amended stShoe (by decide) (by decide)
    none 7 (singleItemReq 1 1 1999 1999 "a") 5 "New" 10 0
    1 none none none 1 1 1 2 (by decide)
  exact ⟨h.1, h.2.1, h.2.2.2.1, h.2.2.2.2⟩

/-! ## C2: no oversell under two concurrent checkouts -/

/-- The invariant holds in the initial state (non-negative starting
stock). -/
theorem twoInv_init (s q0 q1 : Int) (hs : 0 ≤ s) :
    TwoInv s q0 q1 (initTwo s) := by
  simp [TwoInv, initTwo, okTxn, activeTxn, decApplied, hs]

/-- One scheduler step preserves the invariant: the row lock serialises the
two checkouts, the pc-1 guard only lets a transaction decrement when its
locked read covers its quantity, and rollback/commit release the lock. -/
theorem twoInv_step (s q0 q1 : Int) (st : TwoTxnState) (who : Bool)
    (h : TwoInv s q0 q1 st) : TwoInv s q0 q1 (step q0 q1 st who) := by
  obtain ⟨stock, lock, ⟨pc0, snap0, res0⟩, ⟨pc1, snap1, res1⟩⟩ := st
  obtain ⟨hok0, hok1, hacc, hpos, hlnone, hlf, hlt, hsnap0, hsnap1⟩ := h
  dsimp only at hok0 hok1 hacc hpos hlnone hlf hlt hsnap0 hsnap1
  simp only [okTxn] at hok0 hok1
  cases who with
  | false =>
    rcases hok0 with ⟨hpc, hres⟩ | ⟨hpc, hres⟩ | ⟨hpc, hres, hge⟩ |
      ⟨hpc, hres, hge⟩ | ⟨hpc, hres, hge⟩ | ⟨hpc, hres, hge⟩ | ⟨hpc, hres⟩
    · -- pc 0: SELECT ... FOR UPDATE
      subst hpc; subst hres
      rcases lock with _ | b
      · have hnact1 := (hlnone rfl).2
        simp [step, txnStep]
        refine ⟨?_, ?_, ?_, ?_, ?_, ?_, ?_, ?_, ?_⟩ <;> dsimp only
        · exact Or.inr (Or.inl ⟨rfl, rfl⟩)
        · exact hok1
        · simpa [decApplied] using hacc
        · exact hpos
        · simp
        · intro _
          exact ⟨⟨rfl, by dsimp only; omega, by dsimp only; omega⟩, hnact1⟩
        · simp
        · intro _ _ _
          rfl
        · intro hr hp1 hp2
          exact absurd ⟨hr, hp1, show pc1 ≤ 5 by omega⟩ hnact1
      · -- blocked on the other transaction's lock: no-op
        simp [step, txnStep]
        refine ⟨?_, ?_, ?_, ?_, ?_, ?_, ?_, ?_, ?_⟩ <;> dsimp only
        exacts [Or.inl ⟨rfl, rfl⟩, hok1, hacc, hpos, hlnone, hlf, hlt,
          hsnap0, hsnap1]
    · -- pc 1: the stock check
      subst hpc; subst hres
      have hl : lock = some false := by
        rcases lock with _ | b
        · exact absurd ⟨rfl, by dsimp only; omega, by dsimp only; omega⟩ (hlnone rfl).1
        · cases b
          · rfl
          · exact absurd ⟨rfl, by dsimp only; omega, by dsimp only; omega⟩ (hlt rfl).2
      subst hl
      have hnact1 := (hlf rfl).2
      have hsnap : snap0 = stock := hsnap0 rfl (by omega) (by omega)
      by_cases hc0 : snap0 < q0
      · -- insufficient stock: rollback, release, respond 400
        simp [step, txnStep, hc0]
        refine ⟨?_, ?_, ?_, ?_, ?_, ?_, ?_, ?_, ?_⟩ <;> dsimp only
        · exact Or.inr (Or.inr (Or.inr (Or.inr (Or.inr (Or.inr
            ⟨rfl, Or.inr rfl⟩)))))
        · exact hok1
        · simpa [decApplied] using hacc
        · exact hpos
        · intro _
          exact ⟨by simp [activeTxn], hnact1⟩
        · simp
        · simp
        · simp
        · intro hr hp1 hp2
          exact absurd ⟨hr, hp1, show pc1 ≤ 5 by omega⟩ hnact1
      · -- sufficient: proceed to the UPDATE
        simp [step, txnStep, hc0]
        refine ⟨?_, ?_, ?_, ?_, ?_, ?_, ?_, ?_, ?_⟩ <;> dsimp only
        · exact Or.inr (Or.inr (Or.inl ⟨rfl, rfl, show q0 ≤ snap0 by omega⟩))
        · exact hok1
        · simpa [decApplied] using hacc
        · exact hpos
        · simp
        · intro _
          exact ⟨⟨rfl, by dsimp only; omega, by dsimp only; omega⟩, hnact1⟩
        · simp
        · intro _ _ _
          exact hsnap
        · intro hr hp1 hp2
          exact absurd ⟨hr, hp1, show pc1 ≤ 5 by omega⟩ hnact1
    · -- pc 2: UPDATE decrements the shared stock
      subst hpc; subst hres
      have hl : lock = some false := by
        rcases lock with _ | b
        · exact absurd ⟨rfl, by dsimp only; omega, by dsimp only; omega⟩ (hlnone rfl).1
        · cases b
          · rfl
          · exact absurd ⟨rfl, by dsimp only; omega, by dsimp only; omega⟩ (hlt rfl).2
      subst hl
      have hnact1 := (hlf rfl).2
      have hsnap : snap0 = stock := hsnap0 rfl (by omega) (by omega)
      simp [step, txnStep]
      refine ⟨?_, ?_, ?_, ?_, ?_, ?_, ?_, ?_, ?_⟩ <;> dsimp only
      · exact Or.inr (Or.inr (Or.inr (Or.inl ⟨rfl, rfl, hge⟩)))
      · exact hok1
      · simp [decApplied] at hacc ⊢
        omega
      · omega
      · simp
      · intro _
        exact ⟨⟨rfl, by dsimp only; omega, by dsimp only; omega⟩, hnact1⟩
      · simp
      · simp
      · intro hr hp1 hp2
        exact absurd ⟨hr, hp1, show pc1 ≤ 5 by omega⟩ hnact1
    · -- pc 3: INSERT INTO orders
      subst hpc; subst hres
      have hl : lock = some false := by
        rcases lock with _ | b
        · exact absurd ⟨rfl, by dsimp only; omega, by dsimp only; omega⟩ (hlnone rfl).1
        · cases b
          · rfl
          · exact absurd ⟨rfl, by dsimp only; omega, by dsimp only; omega⟩ (hlt rfl).2
      subst hl
      have hnact1 := (hlf rfl).2
      simp [step, txnStep]
      refine ⟨?_, ?_, ?_, ?_, ?_, ?_, ?_, ?_, ?_⟩ <;> dsimp only
      · exact Or.inr (Or.inr (Or.inr (Or.inr (Or.inl ⟨rfl, rfl, hge⟩))))
      · exact hok1
      · simp [decApplied] at hacc ⊢
        omega
      · exact hpos
      · simp
      · intro _
        exact ⟨⟨rfl, by dsimp only; omega, by dsimp only; omega⟩, hnact1⟩
      · simp
      · simp
      · intro hr hp1 hp2
        exact absurd ⟨hr, hp1, show pc1 ≤ 5 by omega⟩ hnact1
    · -- pc 4: INSERT INTO order_items
      subst hpc; subst hres
      have hl : lock = some false := by
        rcases lock with _ | b
        · exact absurd ⟨rfl, by dsimp only; omega, by dsimp only; omega⟩ (hlnone rfl).1
        · cases b
          · rfl
          · exact absurd ⟨rfl, by dsimp only; omega, by dsimp only; omega⟩ (hlt rfl).2
      subst hl
      have hnact1 := (hlf rfl).2
      simp [step, txnStep]
      refine ⟨?_, ?_, ?_, ?_, ?_, ?_, ?_, ?_, ?_⟩ <;> dsimp only
      · exact Or.inr (Or.inr (Or.inr (Or.inr (Or.inr (Or.inl
          ⟨rfl, rfl, hge⟩)))))
      · exact hok1
      · simp [decApplied] at hacc ⊢
        omega
      · exact hpos
      · simp
      · intro _
        exact ⟨⟨rfl, by dsimp only; omega, by dsimp only; omega⟩, hnact1⟩
      · simp
      · simp
      · intro hr hp1 hp2
        exact absurd ⟨hr, hp1, show pc1 ≤ 5 by omega⟩ hnact1
    · -- pc 5: COMMIT releases the lock
      subst hpc; subst hres
      have hl : lock = some false := by
        rcases lock with _ | b
        · exact absurd ⟨rfl, by dsimp only; omega, by dsimp only; omega⟩ (hlnone rfl).1
        · cases b
          · rfl
          · exact absurd ⟨rfl, by dsimp only; omega, by dsimp only; omega⟩ (hlt rfl).2
      subst hl
      have hnact1 := (hlf rfl).2
      simp [step, txnStep]
      refine ⟨?_, ?_, ?_, ?_, ?_, ?_, ?_, ?_, ?_⟩ <;> dsimp only
      · exact Or.inr (Or.inr (Or.inr (Or.inr (Or.inr (Or.inr
          ⟨rfl, Or.inl rfl⟩)))))
      · exact hok1
      · simp [decApplied] at hacc ⊢
        omega
      · exact hpos
      · intro _
        exact ⟨by simp [activeTxn], hnact1⟩
      · simp
      · simp
      · simp
      · intro hr hp1 hp2
        exact absurd ⟨hr, hp1, show pc1 ≤ 5 by omega⟩ hnact1
    · -- pc 9: already finished, no-op
      subst hpc
      rcases hres with hres | hres <;> subst hres <;> simp [step, txnStep] <;>
        (refine ⟨?_, ?_, ?_, ?_, ?_, ?_, ?_, ?_, ?_⟩ <;> dsimp only)
      exacts [Or.inr (Or.inr (Or.inr (Or.inr (Or.inr (Or.inr
          ⟨rfl, Or.inl rfl⟩))))), hok1, hacc, hpos, hlnone, hlf, hlt,
        hsnap0, hsnap1,
        Or.inr (Or.inr (Or.inr (Or.inr (Or.inr (Or.inr
          ⟨rfl, Or.inr rfl⟩))))), hok1, hacc, hpos, hlnone, hlf, hlt,
        hsnap0, hsnap1]
  | true =>
    rcases hok1 with ⟨hpc, hres⟩ | ⟨hpc, hres⟩ | ⟨hpc, hres, hge⟩ |
      ⟨hpc, hres, hge⟩ | ⟨hpc, hres, hge⟩ | ⟨hpc, hres, hge⟩ | ⟨hpc, hres⟩
    · -- pc 0: SELECT ... FOR UPDATE
      subst hpc; subst hres
      rcases lock with _ | b
      · have hnact0 := (hlnone rfl).1
        simp [step, txnStep]
        refine ⟨?_, ?_, ?_, ?_, ?_, ?_, ?_, ?_, ?_⟩ <;> dsimp only
        · exact hok0
        · exact Or.inr (Or.inl ⟨rfl, rfl⟩)
        · simpa [decApplied] using hacc
        · exact hpos
        · simp
        · simp
        · intro _
          exact ⟨⟨rfl, by dsimp only; omega, by dsimp only; omega⟩, hnact0⟩
        · intro hr hp1 hp2
          exact absurd ⟨hr, hp1, show pc0 ≤ 5 by omega⟩ hnact0
        · intro _ _ _
          rfl
      · -- blocked on the other transaction's lock: no-op
        simp [step, txnStep]
        refine ⟨?_, ?_, ?_, ?_, ?_, ?_, ?_, ?_, ?_⟩ <;> dsimp only
        exacts [hok0, Or.inl ⟨rfl, rfl⟩, hacc, hpos, hlnone, hlf, hlt,
          hsnap0, hsnap1]
    · -- pc 1: the stock check
      subst hpc; subst hres
      have hl : lock = some true := by
        rcases lock with _ | b
        · exact absurd ⟨rfl, by dsimp only; omega, by dsimp only; omega⟩ (hlnone rfl).2
        · cases b
          · exact absurd ⟨rfl, by dsimp only; omega, by dsimp only; omega⟩ (hlf rfl).2
          · rfl
      subst hl
      have hnact0 := (hlt rfl).2
      have hsnap : snap1 = stock := hsnap1 rfl (by omega) (by omega)
      by_cases hc1 : snap1 < q1
      · -- insufficient stock: rollback, release, respond 400
        simp [step, txnStep, hc1]
        refine ⟨?_, ?_, ?_, ?_, ?_, ?_, ?_, ?_, ?_⟩ <;> dsimp only
        · exact hok0
        · exact Or.inr (Or.inr (Or.inr (Or.inr (Or.inr (Or.inr
            ⟨rfl, Or.inr rfl⟩)))))
        · simpa [decApplied] using hacc
        · exact hpos
        · intro _
          exact ⟨hnact0, by simp [activeTxn]⟩
        · simp
        · simp
        · intro hr hp1 hp2
          exact absurd ⟨hr, hp1, show pc0 ≤ 5 by omega⟩ hnact0
        · simp
      · -- sufficient: proceed to the UPDATE
        simp [step, txnStep, hc1]
        refine ⟨?_, ?_, ?_, ?_, ?_, ?_, ?_, ?_, ?_⟩ <;> dsimp only
        · exact hok0
        · exact Or.inr (Or.inr (Or.inl ⟨rfl, rfl, show q1 ≤ snap1 by omega⟩))
        · simpa [decApplied] using hacc
        · exact hpos
        · simp
        · simp
        · intro _
          exact ⟨⟨rfl, by dsimp only; omega, by dsimp only; omega⟩, hnact0⟩
        · intro hr hp1 hp2
          exact absurd ⟨hr, hp1, show pc0 ≤ 5 by omega⟩ hnact0
        · intro _ _ _
          exact hsnap
    · -- pc 2: UPDATE decrements the shared stock
      subst hpc; subst hres
      have hl : lock = some true := by
        rcases lock with _ | b
        · exact absurd ⟨rfl, by dsimp only; omega, by dsimp only; omega⟩ (hlnone rfl).2
        · cases b
          · exact absurd ⟨rfl, by dsimp only; omega, by dsimp only; omega⟩ (hlf rfl).2
          · rfl
      subst hl
      have hnact0 := (hlt rfl).2
      have hsnap : snap1 = stock := hsnap1 rfl (by omega) (by omega)
      simp [step, txnStep]
      refine ⟨?_, ?_, ?_, ?_, ?_, ?_, ?_, ?_, ?_⟩ <;> dsimp only
      · exact hok0
      · exact Or.inr (Or.inr (Or.inr (Or.inl ⟨rfl, rfl, hge⟩)))
      · simp [decApplied] at hacc ⊢
        omega
      · omega
      · simp
      · simp
      · intro _
        exact ⟨⟨rfl, by dsimp only; omega, by dsimp only; omega⟩, hnact0⟩
      · intro hr hp1 hp2
        exact absurd ⟨hr, hp1, show pc0 ≤ 5 by omega⟩ hnact0
      · simp
    · -- pc 3: INSERT INTO orders
      subst hpc; subst hres
      have hl : lock = some true := by
        rcases lock with _ | b
        · exact absurd ⟨rfl, by dsimp only; omega, by dsimp only; omega⟩ (hlnone rfl).2
        · cases b
          · exact absurd ⟨rfl, by dsimp only; omega, by dsimp only; omega⟩ (hlf rfl).2
          · rfl
      subst hl
      have hnact0 := (hlt rfl).2
      simp [step, txnStep]
      refine ⟨?_, ?_, ?_, ?_, ?_, ?_, ?_, ?_, ?_⟩ <;> dsimp only
      · exact hok0
      · exact Or.inr (Or.inr (Or.inr (Or.inr (Or.inl ⟨rfl, rfl, hge⟩))))
      · simp [decApplied] at hacc ⊢
        omega
      · exact hpos
      · simp
      · simp
      · intro _
        exact ⟨⟨rfl, by dsimp only; omega, by dsimp only; omega⟩, hnact0⟩
      · intro hr hp1 hp2
        exact absurd ⟨hr, hp1, show pc0 ≤ 5 by omega⟩ hnact0
      · simp
    · -- pc 4: INSERT INTO order_items
      subst hpc; subst hres
      have hl : lock = some true := by
        rcases lock with _ | b
        · exact absurd ⟨rfl, by dsimp only; omega, by dsimp only; omega⟩ (hlnone rfl).2
        · cases b
          · exact absurd ⟨rfl, by dsimp only; omega, by dsimp only; omega⟩ (hlf rfl).2
          · rfl
      subst hl
      have hnact0 := (hlt rfl).2
      simp [step, txnStep]
      refine ⟨?_, ?_, ?_, ?_, ?_, ?_, ?_, ?_, ?_⟩ <;> dsimp only
      · exact hok0
      · exact Or.inr (Or.inr (Or.inr (Or.inr (Or.inr (Or.inl
          ⟨rfl, rfl, hge⟩)))))
      · simp [decApplied] at hacc ⊢
        omega
      · exact hpos
      · simp
      · simp
      · intro _
        exact ⟨⟨rfl, by dsimp only; omega, by dsimp only; omega⟩, hnact0⟩
      · intro hr hp1 hp2
        exact absurd ⟨hr, hp1, show pc0 ≤ 5 by omega⟩ hnact0
      · simp
    · -- pc 5: COMMIT releases the lock
      subst hpc; subst hres
      have hl : lock = some true := by
        rcases lock with _ | b
        · exact absurd ⟨rfl, by dsimp only; omega, by dsimp only; omega⟩ (hlnone rfl).2
        · cases b
          · exact absurd ⟨rfl, by dsimp only; omega, by dsimp only; omega⟩ (hlf rfl).2
          · rfl
      subst hl
      have hnact0 := (hlt rfl).2
      simp [step, txnStep]
      refine ⟨?_, ?_, ?_, ?_, ?_, ?_, ?_, ?_, ?_⟩ <;> dsimp only
      · exact hok0
      · exact Or.inr (Or.inr (Or.inr (Or.inr (Or.inr (Or.inr
          ⟨rfl, Or.inl rfl⟩)))))
      · simp [decApplied] at hacc ⊢
        omega
      · exact hpos
      · intro _
        exact ⟨hnact0, by simp [activeTxn]⟩
      · simp
      · simp
      · intro hr hp1 hp2
        exact absurd ⟨hr, hp1, show pc0 ≤ 5 by omega⟩ hnact0
      · simp
    · -- pc 9: already finished, no-op
      subst hpc
      rcases hres with hres | hres <;> subst hres <;> simp [step, txnStep] <;>
        (refine ⟨?_, ?_, ?_, ?_, ?_, ?_, ?_, ?_, ?_⟩ <;> dsimp only)
      exacts [hok0, Or.inr (Or.inr (Or.inr (Or.inr (Or.inr (Or.inr
          ⟨rfl, Or.inl rfl⟩))))), hacc, hpos, hlnone, hlf, hlt,
        hsnap0, hsnap1,
        hok0, Or.inr (Or.inr (Or.inr (Or.inr (Or.inr (Or.inr
          ⟨rfl, Or.inr rfl⟩))))), hacc, hpos, hlnone, hlf, hlt,
        hsnap0, hsnap1]

/-- The invariant holds after any schedule. -/
theorem twoInv_run (s q0 q1 : Int) (sched : List Bool) (st : TwoTxnState)
    (h : TwoInv s q0 q1 st) : TwoInv s q0 q1 (runSched q0 q1 sched st) := by
  induction sched generalizing st with
  | nil => simpa [runSched] using h
  | cons w rest ih =>
    simpa [runSched] using ih _ (twoInv_step s q0 q1 st w h)

/-- C2: two concurrent single-product checkouts of quantities q0, q1
against stock s with q0 + q1 > s, under any interleaving the row-lock
protocol admits: the two requests never both succeed, and the product's
stock never becomes negative (every prefix of an execution is itself a
schedule, so this covers all intermediate states). -/
theorem no_oversell (s q0 q1 : Int) (sched : List Bool)
    (hs : 0 ≤ s) (hq0 : 1 ≤ q0) (hq1 : 1 ≤ q1) (hover : s < q0 + q1) :
    ¬((runSched q0 q1 sched (initTwo s)).txn0.res = some true ∧
      (runSched q0 q1 sched (initTwo s)).txn1.res = some true) ∧
    0 ≤ (runSched q0 q1 sched (initTwo s)).stock := by
  have hinv := twoInv_run s q0 q1 sched (initTwo s) (twoInv_init s q0 q1 hs)
  obtain ⟨-, -, hacc, hpos, -⟩ := hinv
  refine ⟨?_, hpos⟩
  rintro ⟨h0, h1⟩
  rw [show decApplied (runSched q0 q1 sched (initTwo s)).txn0 = true by
    simp [decApplied, h0]] at hacc
  rw [show decApplied (runSched q0 q1 sched (initTwo s)).txn1 = true by
    simp [decApplied, h1]] at hacc
  simp at hacc
  omega

/-- Witness for C2: stock 1, both requests ask quantity 1; under the
schedule where checkout 0 runs to commit and then checkout 1 runs, the
first gets 201, the second 400, and the final stock is 0. -/
theorem no_oversell_witness :
    (runSched 1 1 [false, false, false, false, false, false, true, true]
      (initTwo 1)).txn0.res = some true ∧
    (runSched 1 1 [false, false, false, false, false, false, true, true]
      (initTwo 1)).txn1.res = some false ∧
    ¬((runSched 1 1 [false, false, false, false, false, false, true, true]
        (initTwo 1)).txn0.res = some true ∧
      (runSched 1 1 [false, false, false, false, false, false, true, true]
        (initTwo 1)).txn1.res = some true) ∧
    0 ≤ (runSched 1 1 [false, false, false, false, false, false, true, true]
      (initTwo 1)).stock :=
  ⟨by decide, by decide,
   (no_oversell 1 1 1 [false, false, false, false, false, false, true, true]
      (by decide) (by decide) (by decide) (by decide)).1,
   (no_oversell 1 1 1 [false, false, false, false, false, false, true, true]
      (by decide) (by decide) (by decide) (by decide)).2⟩
